import Mathlib

/-!
Verification of the baileys-svc session gateway.

This development shallowly embeds the parts of the source that the checked
properties are about:

* the webhook event/message filter (`src/services/webhook-filter.js`),
* the `messages.upsert` and `connection.update` handlers of
  `src/sessions/socket-factory.js` (including the reconnect ladder and the
  payload serializer `serializeBaileysData`),
* credential validation and the computed status view of
  `src/sessions/manager.js`,
* the webhook delivery queue (`src/services/webhook.js`), and
* the binary-preserving JSON round trip used by the Redis auth store
  (`src/sessions/redis-auth-store.js`).

JavaScript strings are Lean `String`s, `undefined`/missing fields are
`Option`, machine timestamps are `Nat` milliseconds, and fractional
reconnect delays are exact rationals.
-/

namespace BaileysSvc

/-- JavaScript truthiness of an optional string: `undefined`, `null` and the
empty string are falsy; every other string is truthy. -/
def strTruthy : Option String → Bool
  | none => false
  | some s => s ≠ ""

/-- The suffix test `jid.endsWith(pat)`, expressed on character lists. -/
def strEndsWith (s pat : String) : Bool :=
  pat.data.isSuffixOf s.data

/-- Helper for the substring test: `pat` occurs inside the character list. -/
def listContainsSub (pat : List Char) : List Char → Bool
  | [] => pat.isEmpty
  | c :: rest => pat.isPrefixOf (c :: rest) || listContainsSub pat rest

/-- The substring test `jid.includes(pat)`, expressed on character lists. -/
def strIncludes (s pat : String) : Bool :=
  listContainsSub pat.data s.data

/-! ## Event filter (`src/services/webhook-filter.js`) -/

/-- Filter configuration parsed from the environment (the `FILTERS` object).
The claims quantify over configurations, so it is a parameter here. -/
structure Filters where
  skipStatus : Bool
  skipGroups : Bool
  skipChannels : Bool
  skipBlocked : Bool
  allowedEvents : List String
  deniedEvents : List String
  deriving DecidableEq

/-- `isStatusJid(jid)`: ends with `@broadcast` or contains `status@broadcast`.
The callers below only apply it to truthy strings, matching the source. -/
def isStatusJid (jid : String) : Bool :=
  strEndsWith jid "@broadcast" || strIncludes jid "status@broadcast"

/-- `isGroupJid(jid)`: ends with `@g.us`. -/
def isGroupJid (jid : String) : Bool :=
  strEndsWith jid "@g.us"

/-- `isChannelJid(jid)`: ends with `@newsletter`. -/
def isChannelJid (jid : String) : Bool :=
  strEndsWith jid "@newsletter"

/-- A Baileys message key; only the fields the filter and the handlers read. -/
structure MsgKey where
  remoteJid : Option String
  id : Option String
  deriving DecidableEq

/-- A Baileys message as seen by the `messages.upsert` handler. -/
structure Msg where
  key : Option MsgKey
  pushName : Option String
  deriving DecidableEq

/-- `m?.key?.remoteJid` with JavaScript optional chaining. -/
def Msg.remoteJid (m : Msg) : Option String :=
  m.key.bind (·.remoteJid)

/-- `shouldSendMessageWebhook(message)` from the filter module: require a
truthy `message?.key?.remoteJid`, then apply the three suffix filters. -/
def shouldSendMessageWebhook (f : Filters) (m : Msg) : Bool :=
  if !strTruthy m.remoteJid then false
  else
    match m.remoteJid with
    | none => false
    | some jid =>
      if f.skipStatus && isStatusJid jid then false
      else if f.skipGroups && isGroupJid jid then false
      else if f.skipChannels && isChannelJid jid then false
      else true

/-- `shouldSendEventWebhook(eventName)`: the denied list wins, then a
non-empty allowed list acts as a whitelist, otherwise allow. -/
def shouldSendEventWebhook (f : Filters) (eventName : String) : Bool :=
  if f.deniedEvents.length > 0 && f.deniedEvents.contains eventName then false
  else if f.allowedEvents.length > 0 then f.allowedEvents.contains eventName
  else true

/-- `filterMessages(messages)`: keep the messages that pass the filter. -/
def filterMessages (f : Filters) (messages : List Msg) : List Msg :=
  messages.filter (shouldSendMessageWebhook f)

/-- The `messages.upsert` handler of `socket-factory.js`, restricted to its
delivery decision: returns the payload message list handed to `sendWebhook`,
or `none` when no webhook is sent (empty batch, event filtered, or every
message filtered out). -/
def handleMessagesUpsert (f : Filters) (messages : List Msg) :
    Option (List Msg) :=
  if messages.length = 0 then none
  else if shouldSendEventWebhook f "messages.upsert" then
    let filteredMessages := filterMessages f messages
    if filteredMessages.length > 0 then some filteredMessages else none
  else none

/-- The message sub-list described by claim C3: `remoteJid` present (truthy)
and not excluded by the `skipStatus`/`skipGroups`/`skipChannels` suffix
rules. -/
def allowedByJidRules (f : Filters) (m : Msg) : Bool :=
  strTruthy m.remoteJid &&
    match m.remoteJid with
    | none => false
    | some jid =>
      !(f.skipStatus && isStatusJid jid) &&
      !(f.skipGroups && isGroupJid jid) &&
      !(f.skipChannels && isChannelJid jid)

theorem allowedByJidRules_eq_shouldSend (f : Filters) (m : Msg) :
    allowedByJidRules f m = shouldSendMessageWebhook f m := by
  unfold allowedByJidRules shouldSendMessageWebhook
  cases h : m.remoteJid with
  | none => simp [strTruthy]
  | some jid =>
    by_cases hj : jid = ""
    · simp [strTruthy, h, hj]
    · simp only [strTruthy, h, hj]
      by_cases h1 : f.skipStatus && isStatusJid jid <;>
        by_cases h2 : f.skipGroups && isGroupJid jid <;>
          by_cases h3 : f.skipChannels && isChannelJid jid <;>
            simp [h1, h2, h3]

/-- C9: the denied list wins; otherwise a non-empty allowed list acts as a
whitelist; otherwise every event is admitted (in particular when both lists
are empty). -/
theorem shouldSendEventWebhook_spec (f : Filters) (name : String) :
    (name ∈ f.deniedEvents → shouldSendEventWebhook f name = false) ∧
    (name ∉ f.deniedEvents → f.allowedEvents ≠ [] →
      (shouldSendEventWebhook f name = true ↔ name ∈ f.allowedEvents)) ∧
    (name ∉ f.deniedEvents → f.allowedEvents = [] →
      shouldSendEventWebhook f name = true) := by
  unfold shouldSendEventWebhook
  refine ⟨fun hd => ?_, fun hd ha => ?_, fun hd ha => ?_⟩
  · have hne : f.deniedEvents ≠ [] := by
      intro h
      rw [h] at hd
      exact (List.not_mem_nil name) hd
    simp [List.length_pos.mpr hne, hd]
  · have hc : f.deniedEvents.contains name = false := by
      simpa using hd
    simp only [hc, Bool.and_false, Bool.false_eq_true, if_false,
      List.length_pos.mpr ha, if_pos]
    simp
  · have hc : f.deniedEvents.contains name = false := by
      simpa using hd
    simp [hc, ha]
    exact Or.inr hd

/-- Closed witness for C9: with both lists empty every event is admitted. -/
theorem shouldSendEventWebhook_spec_witness :
    shouldSendEventWebhook
      { skipStatus := true, skipGroups := false, skipChannels := true,
        skipBlocked := false, allowedEvents := [], deniedEvents := [] }
      "messages.upsert" = true :=
  (shouldSendEventWebhook_spec _ _).2.2 (by simp) rfl

/-- C3: a `messages.upsert` webhook is delivered exactly with the ordered
sub-list of messages admitted by the JID rules; if every message is filtered
out nothing is delivered; and every delivered message passes
`shouldSendMessageWebhook`. -/
theorem messagesUpsert_delivery_spec (f : Filters) (msgs : List Msg) :
    (∀ out, handleMessagesUpsert f msgs = some out →
      out = msgs.filter (allowedByJidRules f) ∧ out ≠ [] ∧
      ∀ m ∈ out, shouldSendMessageWebhook f m = true) ∧
    ((∀ m ∈ msgs, shouldSendMessageWebhook f m = false) →
      handleMessagesUpsert f msgs = none) := by
  have hfe : msgs.filter (allowedByJidRules f) =
      msgs.filter (shouldSendMessageWebhook f) := by
    apply List.filter_congr
    intro m _
    exact allowedByJidRules_eq_shouldSend f m
  constructor
  · intro out hout
    unfold handleMessagesUpsert at hout
    by_cases h0 : msgs.length = 0
    · simp [h0] at hout
    · rw [if_neg h0] at hout
      by_cases hev : shouldSendEventWebhook f "messages.upsert" = true
      · rw [if_pos hev] at hout
        by_cases hlen : (filterMessages f msgs).length > 0
        · rw [if_pos hlen] at hout
          have hoeq : out = filterMessages f msgs := by
            exact (Option.some.injEq _ _ ▸ hout).symm
          subst hoeq
          refine ⟨by simpa [filterMessages] using hfe.symm, ?_, ?_⟩
          · intro hnil
            rw [hnil] at hlen
            simp at hlen
          · intro m hm
            exact List.of_mem_filter hm
        · rw [if_neg hlen] at hout
          exact absurd hout (by simp)
      · rw [if_neg hev] at hout
        exact absurd hout (by simp)
  · intro hall
    have hnil : filterMessages f msgs = [] := by
      unfold filterMessages
      rw [List.filter_eq_nil_iff]
      intro m hm
      simp [hall m hm]
    unfold handleMessagesUpsert
    by_cases h0 : msgs.length = 0
    · simp [h0]
    · rw [if_neg h0]
      by_cases hev : shouldSendEventWebhook f "messages.upsert" = true
      · rw [if_pos hev, hnil]
        simp
      · rw [if_neg hev]

/-- Closed witness for C3: with the default filters a batch containing only a
broadcast (status) message produces no delivery at all. -/
theorem messagesUpsert_delivery_spec_witness :
    handleMessagesUpsert
      { skipStatus := true, skipGroups := false, skipChannels := true,
        skipBlocked := false, allowedEvents := [], deniedEvents := [] }
      [{ key := some { remoteJid := some "12345@broadcast", id := some "A" },
         pushName := none }] = none :=
  (messagesUpsert_delivery_spec _ _).2 (by decide)

/-! ## Session supervisor (`src/sessions/socket-factory.js`,
`src/sessions/manager.js`) -/

/-! Disconnect status codes of the Baileys `DisconnectReason` enumeration
(imported by `socket-factory.js` from the client library). -/

namespace DisconnectReason

def loggedOut : Nat := 401

def restartRequired : Nat := 515

def connectionLost : Nat := 408

def timedOut : Nat := 408

def connectionClosed : Nat := 428

end DisconnectReason

/-- The reconnect decision of the `connection=close` branch of the
`connection.update` handler: given the disconnect `statusCode` (absent when
the error carried none) and the current `reconnectAttempts`, it returns the
new `reconnectAttempts` and the delay (in ms, exact rational) after which
`restartSession` is scheduled, or `none` when nothing is scheduled. -/
def closeReconnect (code : Option Nat) (reconnectAttempts : Nat) :
    Nat × Option ℚ :=
  let shouldReconnect :=
    code = some DisconnectReason.restartRequired ∨
    code = some DisconnectReason.connectionLost ∨
    code = some DisconnectReason.timedOut ∨
    code = some DisconnectReason.connectionClosed ∨
    code = some 428
  if code = some DisconnectReason.loggedOut then (reconnectAttempts, none)
  else if shouldReconnect then
    let attempts := reconnectAttempts + 1
    let maxAttempts := 10
    let delay : ℚ := min (5000 * (3 / 2 : ℚ) ^ (attempts - 1)) 60000
    if attempts ≤ maxAttempts then (attempts, some delay)
    else (attempts, none)
  else (reconnectAttempts, none)

/-- The per-session mutable state touched by the `connection.update`
handler. -/
structure SessState where
  status : String
  lastQR : Option String
  qrGeneratedAt : Option Nat
  connectedAt : Option Nat
  lastActivity : Option Nat
  reconnectAttempts : Nat
  deriving DecidableEq

/-- The fields of a `connection.update` event the handler reads:
`connection`, `qr` and `lastDisconnect?.error?.output?.statusCode`. -/
structure ConnUpdate where
  connection : Option String
  qr : Option String
  statusCode : Option Nat
  deriving DecidableEq

/-- The session object freshly created by `ensureSession`. -/
def initialSession : SessState :=
  { status := "init", lastQR := none, qrGeneratedAt := none,
    connectedAt := none, lastActivity := none, reconnectAttempts := 0 }

/-- One run of the `connection.update` handler at time `now`: statement order
as in the source — store `connection` into `status`, store a `qr` into
`lastQR`, then the `open` branch (clear `lastQR`, reset the reconnect
counter, stamp times) and the `close` branch (reconnect decision). Returns
the new state and the scheduled reconnect delay, if any. -/
def connectionUpdateStep (now : Nat) (s : SessState) (u : ConnUpdate) :
    SessState × Option ℚ :=
  let s1 := match u.connection with
    | some c => { s with status := c }
    | none => s
  let s2 := match u.qr with
    | some q => { s1 with lastQR := some q, qrGeneratedAt := some now }
    | none => s1
  if u.connection = some "open" then
    ({ s2 with lastQR := none, connectedAt := some now,
               lastActivity := some now, reconnectAttempts := 0 }, none)
  else if u.connection = some "close" then
    let r := closeReconnect u.statusCode s2.reconnectAttempts
    ({ s2 with reconnectAttempts := r.1 }, r.2)
  else (s2, none)

theorem closeReconnect_eligible (code : Nat) (a : Nat)
    (h : code = DisconnectReason.restartRequired ∨
         code = DisconnectReason.connectionLost ∨
         code = DisconnectReason.timedOut ∨
         code = DisconnectReason.connectionClosed ∨
         code = 428) :
    closeReconnect (some code) a =
      (a + 1,
       if a + 1 ≤ 10 then some (min (5000 * (3 / 2 : ℚ) ^ a) 60000)
       else none) := by
  have h401 : code ≠ DisconnectReason.loggedOut := by
    unfold DisconnectReason.restartRequired DisconnectReason.connectionLost
      DisconnectReason.timedOut DisconnectReason.connectionClosed
      DisconnectReason.loggedOut at *
    omega
  unfold closeReconnect
  rw [if_neg (by simp [h401])]
  rw [if_pos (by simpa using h)]
  simp only [Nat.add_sub_cancel]
  split <;> rfl

theorem connectionUpdateStep_close (now : Nat) (s : SessState)
    (u : ConnUpdate) (h : u.connection = some "close") :
    (connectionUpdateStep now s u).1.reconnectAttempts =
      (closeReconnect u.statusCode s.reconnectAttempts).1 ∧
    (connectionUpdateStep now s u).2 =
      (closeReconnect u.statusCode s.reconnectAttempts).2 := by
  unfold connectionUpdateStep
  rw [h]
  cases u.qr <;> simp

/-- C1: on every reconnect-eligible disconnect the close handler increments
`reconnectAttempts` by one, schedules `restartSession` after exactly
`min(5000 * 1.5 ^ (attempts - 1), 60000)` ms while the counter is at most
10, schedules nothing once it exceeds 10; and `connection=open` resets the
counter to 0. -/
theorem reconnect_ladder_spec :
    (∀ (now : Nat) (s : SessState) (u : ConnUpdate) (code : Nat),
      u.connection = some "close" → u.statusCode = some code →
      (code = DisconnectReason.restartRequired ∨
       code = DisconnectReason.connectionLost ∨
       code = DisconnectReason.timedOut ∨
       code = DisconnectReason.connectionClosed ∨
       code = 428) →
      (connectionUpdateStep now s u).1.reconnectAttempts =
        s.reconnectAttempts + 1 ∧
      (s.reconnectAttempts + 1 ≤ 10 →
        (connectionUpdateStep now s u).2 =
          some (min (5000 * (3 / 2 : ℚ) ^ s.reconnectAttempts) 60000)) ∧
      (10 < s.reconnectAttempts + 1 →
        (connectionUpdateStep now s u).2 = none)) ∧
    (∀ (now : Nat) (s : SessState) (u : ConnUpdate),
      u.connection = some "open" →
      (connectionUpdateStep now s u).1.reconnectAttempts = 0) := by
  constructor
  · intro now s u code hcl hcode helig
    obtain ⟨h1, h2⟩ := connectionUpdateStep_close now s u hcl
    rw [hcode] at h1 h2
    rw [closeReconnect_eligible code s.reconnectAttempts helig] at h1 h2
    refine ⟨h1, ?_, ?_⟩
    · intro hle
      rw [h2, if_pos hle]
    · intro hgt
      rw [h2, if_neg (by omega)]
  · intro now s u h
    unfold connectionUpdateStep
    rw [h]
    cases u.qr <;> simp

/-- Closed witness for C1: at the third consecutive `CONNECTION_LOST`
disconnect the scheduled delay is exactly 11250 ms, and an `open` event
resets the counter. -/
theorem reconnect_ladder_spec_witness :
    (connectionUpdateStep 0
      { initialSession with reconnectAttempts := 2 }
      { connection := some "close", qr := none,
        statusCode := some DisconnectReason.connectionLost }).2 =
      some 11250 ∧
    (connectionUpdateStep 0
      { initialSession with reconnectAttempts := 7 }
      { connection := some "open", qr := none, statusCode := none
        }).1.reconnectAttempts = 0 := by
  constructor
  · have h := (reconnect_ladder_spec.1 0
      { initialSession with reconnectAttempts := 2 }
      { connection := some "close", qr := none,
        statusCode := some DisconnectReason.connectionLost }
      DisconnectReason.connectionLost rfl rfl
      (Or.inr (Or.inl rfl))).2.1 (by norm_num)
    rw [h]
    norm_num
  · exact reconnect_ladder_spec.2 0
      { initialSession with reconnectAttempts := 7 }
      { connection := some "open", qr := none, statusCode := none } rfl

/-- C2: a `LOGGED_OUT` disconnect never schedules a reconnect and leaves
`reconnectAttempts` untouched, whatever its current value and whatever else
the update carries. -/
theorem loggedOut_no_reconnect (now : Nat) (s : SessState)
    (q : Option String) :
    (connectionUpdateStep now s
      { connection := some "close", qr := q,
        statusCode := some DisconnectReason.loggedOut }).1.reconnectAttempts =
      s.reconnectAttempts ∧
    (connectionUpdateStep now s
      { connection := some "close", qr := q,
        statusCode := some DisconnectReason.loggedOut }).2 = none := by
  obtain ⟨h1, h2⟩ := connectionUpdateStep_close now s
    { connection := some "close", qr := q,
      statusCode := some DisconnectReason.loggedOut } rfl
  rw [h1, h2]
  unfold closeReconnect
  rw [if_pos rfl]
  exact ⟨rfl, rfl⟩

/-- Left-biased choice on optional strings (`a ?? b`). -/
def optOr (a b : Option String) : Option String :=
  match a with
  | some x => some x
  | none => b

theorem connectionUpdateStep_status (now : Nat) (s : SessState)
    (u : ConnUpdate) :
    (connectionUpdateStep now s u).1.status = u.connection.getD s.status := by
  obtain ⟨uc, uq, ucode⟩ := u
  unfold connectionUpdateStep
  rcases uc with _ | c
  · rcases uq with _ | q <;> simp
  · rcases uq with _ | q <;>
    · by_cases hco : c = "open"
      · subst hco
        simp
      · by_cases hcc : c = "close"
        · subst hcc
          simp
        · simp [hco, hcc]

theorem connectionUpdateStep_lastQR (now : Nat) (s : SessState)
    (u : ConnUpdate) :
    (connectionUpdateStep now s u).1.lastQR =
      if u.connection = some "open" then none else optOr u.qr s.lastQR := by
  obtain ⟨uc, uq, ucode⟩ := u
  unfold connectionUpdateStep
  rcases uc with _ | c
  · rcases uq with _ | q <;> simp [optOr]
  · rcases uq with _ | q <;>
    · by_cases hco : c = "open"
      · subst hco
        simp
      · by_cases hcc : c = "close"
        · subst hcc
          simp [optOr]
        · simp [hco, hcc, optOr]

/-- States reachable from a fresh session under arbitrary sequences of
`connection.update` events. -/
inductive ReachableConn : SessState → Prop where
  | base : ReachableConn initialSession
  | next (s : SessState) (u : ConnUpdate) (now : Nat) :
      ReachableConn s → ReachableConn (connectionUpdateStep now s u).1

/-- C6 counterexample: from a fresh session, a single `connection.update`
carrying `connection=close` together with a `qr` string reaches a state with
a non-empty `lastQR` and status `close`, which is neither `connecting` nor
`init`. The close branch of the handler never clears `lastQR`. -/
theorem lastQR_status_invariant_counterexample :
    ReachableConn
      (connectionUpdateStep 0 initialSession
        { connection := some "close", qr := some "QRDATA",
          statusCode := none }).1 ∧
    (connectionUpdateStep 0 initialSession
      { connection := some "close", qr := some "QRDATA",
        statusCode := none }).1.lastQR = some "QRDATA" ∧
    ¬((connectionUpdateStep 0 initialSession
        { connection := some "close", qr := some "QRDATA",
          statusCode := none }).1.status = "connecting" ∨
      (connectionUpdateStep 0 initialSession
        { connection := some "close", qr := some "QRDATA",
          statusCode := none }).1.status = "init") := by
  refine ⟨ReachableConn.next initialSession _ 0 ReachableConn.base, ?_, ?_⟩
  · rfl
  · intro h
    rcases h with h | h <;> exact absurd h (by decide)

/-- States reachable from a fresh session under `connection.update`
sequences in which a `qr`-only update (no `connection` field) never arrives
while the session is `open`. -/
inductive ReachableConnG : SessState → Prop where
  | base : ReachableConnG initialSession
  | next (s : SessState) (u : ConnUpdate) (now : Nat) :
      ReachableConnG s →
      (u.qr ≠ none → u.connection = none → s.status ≠ "open") →
      ReachableConnG (connectionUpdateStep now s u).1

/-- C6 (amended): whenever `lastQR` is non-empty the status is not `open`
(the close branch of the handler does not clear `lastQR`, so `connecting`
or `init` cannot be guaranteed), over all states reachable under the guard
above; and the transition to `open` always clears `lastQR`. -/
theorem lastQR_not_open_invariant :
    (∀ s : SessState, ReachableConnG s → s.lastQR ≠ none →
      s.status ≠ "open") ∧
    (∀ (now : Nat) (s : SessState) (u : ConnUpdate),
      u.connection = some "open" →
      (connectionUpdateStep now s u).1.lastQR = none) := by
  have clearOnOpen : ∀ (now : Nat) (s : SessState) (u : ConnUpdate),
      u.connection = some "open" →
      (connectionUpdateStep now s u).1.lastQR = none := by
    intro now s u h
    rw [connectionUpdateStep_lastQR, if_pos h]
  refine ⟨?_, clearOnOpen⟩
  have main : ∀ s : SessState, ReachableConnG s →
      (s.status = "open" → s.lastQR = none) := by
    intro s hr
    induction hr with
    | base =>
      intro h
      exact absurd h (by decide)
    | next s u now hr hguard ih =>
      intro hopen
      rw [connectionUpdateStep_status] at hopen
      rcases hc : u.connection with _ | c
      · rw [hc, Option.getD_none] at hopen
        rcases hq : u.qr with _ | q
        · rw [connectionUpdateStep_lastQR, if_neg (by simp [hc]), hq]
          simp [optOr, ih hopen]
        · exact absurd hopen (hguard (by simp [hq]) hc)
      · rw [hc, Option.getD_some] at hopen
        subst hopen
        exact clearOnOpen now s u hc
  intro s hr hqr hopen
  exact hqr (main s hr hopen)

/-- Closed witness for the amended C6: the state reached by a fresh session
after a `qr`-only update has `lastQR` set and its status is not `open`. -/
theorem lastQR_not_open_invariant_witness :
    (connectionUpdateStep 0 initialSession
      { connection := none, qr := some "QRDATA",
        statusCode := none }).1.status ≠ "open" ∧
    (connectionUpdateStep 7 initialSession
      { connection := some "open", qr := none,
        statusCode := none }).1.lastQR = none := by
  constructor
  · exact lastQR_not_open_invariant.1 _
      (ReachableConnG.next initialSession _ 0 ReachableConnG.base
        (fun _ _ => by decide))
      (by decide)
  · exact lastQR_not_open_invariant.2 7 initialSession
      { connection := some "open", qr := none, statusCode := none } rfl

/-! ## Credential validation and the computed status view
(`src/sessions/manager.js`) -/

/-- The JavaScript value stored at `state.creds.me.id`: either a string or
some non-string value, abstracted to its truthiness. -/
inductive IdVal where
  | str (s : String)
  | nonStr (truthyFlag : Bool)
  deriving DecidableEq

/-- JavaScript truthiness of the optional `id` value. -/
def idTruthy : Option IdVal → Bool
  | none => false
  | some (.str s) => s ≠ ""
  | some (.nonStr t) => t

/-- `creds.me` as read by `validateCredentials`. -/
structure MeDoc where
  id : Option IdVal
  name : Option String
  deriving DecidableEq

/-- The credential document (`state.creds`). -/
structure CredsDoc where
  me : Option MeDoc
  deriving DecidableEq

/-- The auth state (`session.state`). -/
structure AuthStateDoc where
  creds : Option CredsDoc
  deriving DecidableEq

/-- `state?.creds?.me?.id` with optional chaining. -/
def AuthStateDoc.meId (state : Option AuthStateDoc) : Option IdVal :=
  ((state.bind (·.creds)).bind (·.me)).bind (·.id)

/-- Result of `validateCredentials`. -/
structure CredCheck where
  valid : Bool
  reason : String
  deriving DecidableEq

/-- `validateCredentials(state)` from `manager.js`: a falsy
`state?.creds?.me?.id` is "missing"; a non-string or empty-string id is an
invalid format; otherwise the credentials are valid. -/
def validateCredentials (state : Option AuthStateDoc) : CredCheck :=
  let idv := AuthStateDoc.meId state
  if !idTruthy idv then
    { valid := false,
      reason := "Missing state.creds.me.id (required by Baileys)" }
  else
    match idv with
    | some (.str s) =>
      if s.length = 0 then
        { valid := false, reason := "Invalid state.creds.me.id format" }
      else { valid := true, reason := "Credentials valid" }
    | _ => { valid := false, reason := "Invalid state.creds.me.id format" }

/-- The inputs `getActualSessionStatus` reads from a session: the stored
Baileys status, the auth state and `session.sock?.ws?.readyState`. -/
structure SessionView where
  status : String
  state : Option AuthStateDoc
  wsReadyState : Option Nat
  deriving DecidableEq

/-- The computed status view returned by `getActualSessionStatus`. -/
structure ActualStatus where
  actualStatus : String
  isAuthenticated : Bool
  credentialsValid : Bool
  baileyStatus : String
  wsState : Option Nat
  deriving DecidableEq

/-- `getActualSessionStatus(session)` from `manager.js`, with its branch
order: authenticated `open`, then `connecting`, then invalid credentials,
then `connection_lost`, then `close`. -/
def getActualSessionStatus (sess : SessionView) : ActualStatus :=
  let credCheck := validateCredentials sess.state
  let hasValidCreds := credCheck.valid
  let baileyStatus := sess.status
  let wsState := sess.wsReadyState
  if baileyStatus = "open" ∧ hasValidCreds = true ∧ wsState = some 1 then
    { actualStatus := "open", isAuthenticated := true,
      credentialsValid := hasValidCreds, baileyStatus := baileyStatus,
      wsState := wsState }
  else if baileyStatus = "connecting" then
    { actualStatus := "connecting", isAuthenticated := false,
      credentialsValid := hasValidCreds, baileyStatus := baileyStatus,
      wsState := wsState }
  else if hasValidCreds = false then
    { actualStatus := "invalid_credentials", isAuthenticated := false,
      credentialsValid := hasValidCreds, baileyStatus := baileyStatus,
      wsState := wsState }
  else if ¬wsState = some 1 ∧ baileyStatus = "open" then
    { actualStatus := "connection_lost", isAuthenticated := false,
      credentialsValid := hasValidCreds, baileyStatus := baileyStatus,
      wsState := wsState }
  else
    { actualStatus := "close", isAuthenticated := false,
      credentialsValid := hasValidCreds, baileyStatus := baileyStatus,
      wsState := wsState }

/-- The condition of claim C5: `state.creds.me.id` is missing, not a
string, or an empty string. -/
def credsIdInvalid (state : Option AuthStateDoc) : Bool :=
  match AuthStateDoc.meId state with
  | none => true
  | some (.nonStr _) => true
  | some (.str s) => s = ""

theorem credsIdInvalid_valid_false (state : Option AuthStateDoc)
    (h : credsIdInvalid state = true) :
    (validateCredentials state).valid = false := by
  unfold credsIdInvalid at h
  unfold validateCredentials
  cases hid : AuthStateDoc.meId state with
  | none => simp [idTruthy, hid]
  | some v =>
    cases v with
    | str s =>
      rw [hid] at h
      have hs : s = "" := by simpa using h
      subst hs
      simp [idTruthy, hid]
    | nonStr t =>
      cases t <;> simp [idTruthy, hid]

/-- C5 counterexample: a session with invalid credentials whose stored
status is `connecting` is reported as `connecting`, not
`invalid_credentials` — the `connecting` branch precedes the credential
check. -/
theorem actualStatus_invalid_creds_counterexample :
    credsIdInvalid none = true ∧
    (getActualSessionStatus
      { status := "connecting", state := none,
        wsReadyState := none }).actualStatus = "connecting" ∧
    ¬(getActualSessionStatus
      { status := "connecting", state := none,
        wsReadyState := none }).actualStatus = "invalid_credentials" := by
  refine ⟨rfl, rfl, ?_⟩
  intro h
  exact absurd h (by decide)

/-- C5 (amended): with a missing, non-string or empty `creds.me.id` the
view always reports `credentialsValid = false` and
`isAuthenticated = false`; the reported `actualStatus` is
`invalid_credentials` for every stored status except `connecting`, which is
reported as `connecting`. -/
theorem actualStatus_invalid_creds (sess : SessionView)
    (h : credsIdInvalid sess.state = true) :
    (getActualSessionStatus sess).credentialsValid = false ∧
    (getActualSessionStatus sess).isAuthenticated = false ∧
    (sess.status ≠ "connecting" →
      (getActualSessionStatus sess).actualStatus = "invalid_credentials") ∧
    (sess.status = "connecting" →
      (getActualSessionStatus sess).actualStatus = "connecting") := by
  have hv := credsIdInvalid_valid_false sess.state h
  unfold getActualSessionStatus
  rw [if_neg (by simp [hv])]
  by_cases hc : sess.status = "connecting"
  · rw [if_pos hc]
    exact ⟨hv, rfl, fun hne => absurd hc hne, fun _ => rfl⟩
  · rw [if_neg hc, if_pos hv]
    exact ⟨hv, rfl, fun _ => rfl, fun hcc => absurd hcc hc⟩

/-- Closed witness for the amended C5: a closed session with no credentials
is reported as `invalid_credentials`, unauthenticated. -/
theorem actualStatus_invalid_creds_witness :
    (getActualSessionStatus
      { status := "close", state := none,
        wsReadyState := none }).credentialsValid = false ∧
    (getActualSessionStatus
      { status := "close", state := none,
        wsReadyState := none }).actualStatus = "invalid_credentials" := by
  have h := actualStatus_invalid_creds
    { status := "close", state := none, wsReadyState := none } rfl
  exact ⟨h.1, h.2.2.1 (by decide)⟩

/-! ## Webhook delivery queue (`src/services/webhook.js`) -/

/-- One entry of the `errors` audit trail of a job. -/
structure ErrEntry where
  attempt : Nat
  error : String
  ts : Nat
  deriving DecidableEq

/-- A webhook job as built by `enqueue`. The payload type is a parameter;
list membership in the Redis lists compares the JSON serialization, which
for these records coincides with structural equality. -/
structure Job (α : Type) where
  id : String
  sessionId : String
  event : String
  payload : α
  ts : Nat
  attempts : Nat
  lastAttempt : Option Nat
  errors : List ErrEntry
  deriving DecidableEq

/-- `MAX_RETRIES` (the `maxRetries` field of `WebhookQueue`). -/
def maxRetries : Nat := 3

/-- `RETRY_DELAY` in ms (the `retryDelay` field of `WebhookQueue`). -/
def retryDelay : Nat := 5000

/-- The job record built by `enqueue`: the id is
`` `${Date.now()}_${Math.random().toString(36).substr(2, 9)}` ``; `now` is
`Date.now()` and `rand` the random base36 fragment. -/
def mkWebhookJob {α : Type} (now : Nat) (rand : String)
    (sessionId event : String) (payload : α) : Job α :=
  { id := toString now ++ "_" ++ rand, sessionId := sessionId,
    event := event, payload := payload, ts := now, attempts := 0,
    lastAttempt := none, errors := [] }

/-- The result value of `enqueue`. -/
structure EnqueueResult where
  ok : Bool
  id : Option String
  reason : Option String
  deriving DecidableEq

/-- `WebhookQueue.enqueue(sessionId, event, payload)`: with no configured
`WEBHOOK_URL` (empty string models the unset variable, both falsy) it
returns `{ok:false, reason:"no-webhook-url"}` without touching the queue;
otherwise it `lpush`es the new job onto the head of `webhook:queue` and
returns `{ok:true, id}`. -/
def enqueue {α : Type} (webhookUrl : String) (now : Nat) (rand : String)
    (sessionId event : String) (payload : α) (queue : List (Job α)) :
    EnqueueResult × List (Job α) :=
  if webhookUrl = "" then
    ({ ok := false, id := none, reason := some "no-webhook-url" }, queue)
  else
    let webhook := mkWebhookJob now rand sessionId event payload
    ({ ok := true, id := some webhook.id, reason := none },
     webhook :: queue)

/-- The queue-engine state: the three Redis lists (head = list head) plus
the re-push timers armed by the retry handler, as `(delay ms, job)`
pairs. -/
structure WqState (α : Type) where
  queue : List (Job α)
  processing : List (Job α)
  failed : List (Job α)
  scheduled : List (Nat × Job α)
  deriving DecidableEq

/-- `WebhookQueue.handleFailedWebhook(webhook, error)`: mutate the job
(increment `attempts`, stamp `lastAttempt`, append to `errors`), then
`lrem` one occurrence of the *current* (already mutated)
job serialization from `webhook:processing`, then either arm a re-push timer
with delay `RETRY_DELAY * 2^(attempts-1)` (when `attempts < MAX_RETRIES`)
or `lpush` the job onto `webhook:failed`. -/
def handleFailedWebhook {α : Type} [DecidableEq α] (now : Nat)
    (error : String) (webhook : Job α) (st : WqState α) : WqState α :=
  let w := { webhook with
    attempts := webhook.attempts + 1,
    lastAttempt := some now,
    errors := webhook.errors ++
      [{ attempt := webhook.attempts + 1, error := error, ts := now }] }
  let st1 := { st with processing := st.processing.erase w }
  if w.attempts < maxRetries then
    { st1 with scheduled :=
        st1.scheduled ++ [(retryDelay * 2 ^ (w.attempts - 1), w)] }
  else
    { st1 with failed := w :: st1.failed }

/-- The failing input for C4: a fresh job (attempts 0, no errors) whose
original serialization sits in `webhook:processing`. -/
def sampleJob : Job Unit :=
  { id := "1700000000000_abc123def", sessionId := "alpha",
    event := "messages.upsert", payload := (), ts := 1700000000000,
    attempts := 0, lastAttempt := none, errors := [] }

/-- The job record after one failed attempt at time 5000. -/
def sampleJobAfterFailure : Job Unit :=
  { id := "1700000000000_abc123def", sessionId := "alpha",
    event := "messages.upsert", payload := (), ts := 1700000000000,
    attempts := 1, lastAttempt := some 5000,
    errors := [{ attempt := 1, error := "HTTP 500: Internal Server Error",
                 ts := 5000 }] }

/-- C4 (code bug): the retry handler does not remove the failed job from
`webhook:processing`. It mutates the job first and then `lrem`s the mutated
serialization, which is not the string that `rpoplpush` left in the list,
so the original record stays behind. Evaluated at a concrete fresh job:
the processing list still holds the original job, while the retry is
otherwise scheduled as the claim describes (delay `5000 * 2^0`,
`attempts = 1`, one error entry). -/
theorem handleFailedWebhook_leaves_processing_entry :
    handleFailedWebhook 5000 "HTTP 500: Internal Server Error" sampleJob
      { queue := [], processing := [sampleJob], failed := [],
        scheduled := [] } =
    { queue := [], processing := [sampleJob], failed := [],
      scheduled := [(5000, sampleJobAfterFailure)] } := by
  decide

/-- C8 counterexample: with no sink configured, `enqueue` reports the
reason string `"no-webhook-url"`, not `"no-sink"` as the claim states. -/
theorem enqueue_reason_counterexample :
    (enqueue "" 1700000000000 "abc123def" "alpha" "messages.upsert" ()
      []).1.reason = some "no-webhook-url" ∧
    (enqueue "" 1700000000000 "abc123def" "alpha" "messages.upsert" ()
      []).1.reason ≠ some "no-sink" := by
  exact ⟨rfl, by decide⟩

/-- C8 (amended): with `WEBHOOK_URL` unset `enqueue` returns
`{ok:false, reason:"no-webhook-url"}` and pushes nothing; with a sink
configured it returns `{ok:true, id}` where `id` is the freshly generated
`` `${now}_${rand}` `` string, and pushes exactly the new job onto the head
of `webhook:queue`. -/
theorem enqueue_spec {α : Type} (webhookUrl : String) (now : Nat)
    (rand sessionId event : String) (payload : α) (queue : List (Job α)) :
    (webhookUrl = "" →
      enqueue webhookUrl now rand sessionId event payload queue =
        ({ ok := false, id := none, reason := some "no-webhook-url" },
         queue)) ∧
    (webhookUrl ≠ "" →
      enqueue webhookUrl now rand sessionId event payload queue =
        ({ ok := true, id := some (toString now ++ "_" ++ rand),
           reason := none },
         mkWebhookJob now rand sessionId event payload :: queue)) := by
  constructor
  · intro h
    unfold enqueue
    rw [if_pos h]
  · intro h
    unfold enqueue
    rw [if_neg h]
    rfl

/-- Closed witness for the amended C8: with a sink configured the job is
pushed and its id returned. -/
theorem enqueue_spec_witness :
    enqueue "https://sink.example/hook" 1700000000000 "abc123def" "alpha"
      "messages.upsert" () [] =
      ({ ok := true, id := some "1700000000000_abc123def",
         reason := none },
       [mkWebhookJob 1700000000000 "abc123def" "alpha" "messages.upsert"
         ()]) :=
  (enqueue_spec "https://sink.example/hook" 1700000000000 "abc123def"
    "alpha" "messages.upsert" () []).2 (by decide)


/-! ## Base64 (the `Buffer.from(...).toString("base64")` and
`Buffer.from(s, "base64")` pair used by the buffer-tag encoding) -/

/-- A byte. -/
abbrev Byte := Fin 256

/-- The base64 alphabet. -/
def b64Table : List Char :=
  "ABCDEFGHIJKLMNOPQRSTUVWXYZabcdefghijklmnopqrstuvwxyz0123456789+/".toList

/-- The base64 padding character. -/
def padChar : Char := '='

/-- The character for a six-bit group. -/
def sextetChar (s : Fin 64) : Char :=
  b64Table.getD s.val 'A'

/-- The six-bit group for a character, when it is in the alphabet. -/
def charSextet (c : Char) : Option (Fin 64) :=
  let i := b64Table.indexOf c
  if h : i < 64 then some ⟨i, h⟩ else none

theorem charSextet_sextetChar : ∀ s : Fin 64,
    charSextet (sextetChar s) = some s := by decide

theorem sextetChar_ne_padChar : ∀ s : Fin 64, ¬sextetChar s = padChar := by
  decide

theorem sextet1_lt (a : Byte) : a.val / 4 < 64 := by
  have := a.isLt
  omega

theorem sextet2_lt (a b : Byte) : a.val % 4 * 16 + b.val / 16 < 64 := by
  have := a.isLt
  have := b.isLt
  omega

theorem sextet2a_lt (a : Byte) : a.val % 4 * 16 < 64 := by
  have := a.isLt
  omega

theorem sextet3_lt (b c : Byte) : b.val % 16 * 4 + c.val / 64 < 64 := by
  have := b.isLt
  have := c.isLt
  omega

theorem sextet3a_lt (b : Byte) : b.val % 16 * 4 < 64 := by
  have := b.isLt
  omega

theorem sextet4_lt (c : Byte) : c.val % 64 < 64 := by
  omega

/-- Standard base64 encoding of a byte list, three bytes to four
characters, with `=` padding on a final short group. -/
def b64EncodeChunks : List Byte → List Char
  | [] => []
  | [a] =>
    [sextetChar ⟨a.val / 4, sextet1_lt a⟩,
     sextetChar ⟨a.val % 4 * 16, sextet2a_lt a⟩,
     padChar, padChar]
  | [a, b] =>
    [sextetChar ⟨a.val / 4, sextet1_lt a⟩,
     sextetChar ⟨a.val % 4 * 16 + b.val / 16, sextet2_lt a b⟩,
     sextetChar ⟨b.val % 16 * 4, sextet3a_lt b⟩,
     padChar]
  | a :: b :: c :: rest =>
    sextetChar ⟨a.val / 4, sextet1_lt a⟩ ::
    sextetChar ⟨a.val % 4 * 16 + b.val / 16, sextet2_lt a b⟩ ::
    sextetChar ⟨b.val % 16 * 4 + c.val / 64, sextet3_lt b c⟩ ::
    sextetChar ⟨c.val % 64, sextet4_lt c⟩ ::
    b64EncodeChunks rest

/-- First byte reconstructed from two six-bit groups. -/
def byteOf12 (s1 s2 : Fin 64) : Byte :=
  ⟨(s1.val * 4 + s2.val / 16) % 256, by omega⟩

/-- Second byte reconstructed from two six-bit groups. -/
def byteOf23 (s2 s3 : Fin 64) : Byte :=
  ⟨(s2.val % 16 * 16 + s3.val / 4) % 256, by omega⟩

/-- Third byte reconstructed from two six-bit groups. -/
def byteOf34 (s3 s4 : Fin 64) : Byte :=
  ⟨(s3.val % 4 * 64 + s4.val) % 256, by omega⟩

/-- Base64 decoding, a left inverse of `b64EncodeChunks`. -/
def b64DecodeChunks : List Char → Option (List Byte)
  | [] => some []
  | [c1, c2, c3, c4] =>
    if c3 = padChar then
      if c4 = padChar then
        (charSextet c1).bind fun s1 =>
        (charSextet c2).bind fun s2 => some [byteOf12 s1 s2]
      else none
    else if c4 = padChar then
      (charSextet c1).bind fun s1 =>
      (charSextet c2).bind fun s2 =>
      (charSextet c3).bind fun s3 =>
        some [byteOf12 s1 s2, byteOf23 s2 s3]
    else
      (charSextet c1).bind fun s1 =>
      (charSextet c2).bind fun s2 =>
      (charSextet c3).bind fun s3 =>
      (charSextet c4).bind fun s4 =>
        some [byteOf12 s1 s2, byteOf23 s2 s3, byteOf34 s3 s4]
  | c1 :: c2 :: c3 :: c4 :: rest =>
    (charSextet c1).bind fun s1 =>
    (charSextet c2).bind fun s2 =>
    (charSextet c3).bind fun s3 =>
    (charSextet c4).bind fun s4 =>
    (b64DecodeChunks rest).bind fun tl =>
      some (byteOf12 s1 s2 :: byteOf23 s2 s3 :: byteOf34 s3 s4 :: tl)
  | _ => none

theorem b64EncodeChunks_shape (l : List Byte) (hl : l ≠ []) :
    ∃ e1 e2 e3 e4 tl,
      b64EncodeChunks l = e1 :: e2 :: e3 :: e4 :: tl := by
  match l with
  | [] => exact absurd rfl hl
  | [a] => exact ⟨_, _, _, _, _, rfl⟩
  | [a, b] => exact ⟨_, _, _, _, _, rfl⟩
  | a :: b :: c :: rest => exact ⟨_, _, _, _, _, rfl⟩

theorem b64DecodeChunks_encode :
    ∀ l : List Byte, b64DecodeChunks (b64EncodeChunks l) = some l
  | [] => rfl
  | [a] => by
    have ha := a.isLt
    show b64DecodeChunks [sextetChar ⟨a.val / 4, sextet1_lt a⟩,
      sextetChar ⟨a.val % 4 * 16, sextet2a_lt a⟩, padChar, padChar] = some [a]
    simp only [b64DecodeChunks]
    rw [if_pos trivial, if_pos trivial]
    simp only [charSextet_sextetChar, Option.some_bind, Option.some.injEq,
      List.cons.injEq, and_true, byteOf12]
    apply Fin.ext
    show (a.val / 4 * 4 + a.val % 4 * 16 / 16) % 256 = a.val
    omega
  | [a, b] => by
    have ha := a.isLt
    have hb := b.isLt
    show b64DecodeChunks [sextetChar ⟨a.val / 4, sextet1_lt a⟩,
      sextetChar ⟨a.val % 4 * 16 + b.val / 16, sextet2_lt a b⟩,
      sextetChar ⟨b.val % 16 * 4, sextet3a_lt b⟩, padChar] = some [a, b]
    simp only [b64DecodeChunks]
    rw [if_neg (sextetChar_ne_padChar _), if_pos trivial]
    simp only [charSextet_sextetChar, Option.some_bind, Option.some.injEq,
      List.cons.injEq, and_true, byteOf12, byteOf23]
    constructor
    · apply Fin.ext
      show (a.val / 4 * 4 + (a.val % 4 * 16 + b.val / 16) / 16) % 256 = a.val
      omega
    · apply Fin.ext
      show ((a.val % 4 * 16 + b.val / 16) % 16 * 16 + b.val % 16 * 4 / 4)
          % 256 = b.val
      omega
  | [a, b, c] => by
    have ha := a.isLt
    have hb := b.isLt
    have hc := c.isLt
    show b64DecodeChunks [sextetChar ⟨a.val / 4, sextet1_lt a⟩,
      sextetChar ⟨a.val % 4 * 16 + b.val / 16, sextet2_lt a b⟩,
      sextetChar ⟨b.val % 16 * 4 + c.val / 64, sextet3_lt b c⟩,
      sextetChar ⟨c.val % 64, sextet4_lt c⟩] = some [a, b, c]
    simp only [b64DecodeChunks]
    rw [if_neg (sextetChar_ne_padChar _), if_neg (sextetChar_ne_padChar _)]
    simp only [charSextet_sextetChar, Option.some_bind, Option.some.injEq,
      List.cons.injEq, and_true, byteOf12, byteOf23, byteOf34]
    refine ⟨?_, ?_, ?_⟩
    · apply Fin.ext
      show (a.val / 4 * 4 + (a.val % 4 * 16 + b.val / 16) / 16) % 256 = a.val
      omega
    · apply Fin.ext
      show ((a.val % 4 * 16 + b.val / 16) % 16 * 16 +
          (b.val % 16 * 4 + c.val / 64) / 4) % 256 = b.val
      omega
    · apply Fin.ext
      show ((b.val % 16 * 4 + c.val / 64) % 4 * 64 + c.val % 64) % 256 = c.val
      omega
  | a :: b :: c :: d :: rest => by
    have ha := a.isLt
    have hb := b.isLt
    have hc := c.isLt
    have ih := b64DecodeChunks_encode (d :: rest)
    obtain ⟨e1, e2, e3, e4, tl, henc⟩ :=
      b64EncodeChunks_shape (d :: rest) (by simp)
    show b64DecodeChunks (sextetChar ⟨a.val / 4, sextet1_lt a⟩ ::
      sextetChar ⟨a.val % 4 * 16 + b.val / 16, sextet2_lt a b⟩ ::
      sextetChar ⟨b.val % 16 * 4 + c.val / 64, sextet3_lt b c⟩ ::
      sextetChar ⟨c.val % 64, sextet4_lt c⟩ ::
      b64EncodeChunks (d :: rest)) = some (a :: b :: c :: d :: rest)
    rw [henc]
    rw [henc] at ih
    simp only [b64DecodeChunks, charSextet_sextetChar, Option.some_bind]
    rw [ih]
    simp only [Option.some_bind, Option.some.injEq, List.cons.injEq, and_true,
      byteOf12, byteOf23, byteOf34]
    refine ⟨?_, ?_, ?_⟩
    · apply Fin.ext
      show (a.val / 4 * 4 + (a.val % 4 * 16 + b.val / 16) / 16) % 256 = a.val
      omega
    · apply Fin.ext
      show ((a.val % 4 * 16 + b.val / 16) % 16 * 16 +
          (b.val % 16 * 4 + c.val / 64) / 4) % 256 = b.val
      omega
    · apply Fin.ext
      show ((b.val % 16 * 4 + c.val / 64) % 4 * 64 + c.val % 64) % 256 = c.val
      omega

/-- `Buffer.from(bytes).toString("base64")`. -/
def b64EncodeString (l : List Byte) : String :=
  String.mk (b64EncodeChunks l)

/-- `Buffer.from(s, "base64")`, strict about its input alphabet. -/
def b64DecodeString (s : String) : Option (List Byte) :=
  b64DecodeChunks s.data

theorem b64DecodeString_encode (l : List Byte) :
    b64DecodeString (b64EncodeString l) = some l :=
  b64DecodeChunks_encode l


/-! ## JSON values with byte buffers
(`serializeBaileysData` in `src/sessions/socket-factory.js`, and the
`BufferJSON` transform used by `src/sessions/redis-auth-store.js`) -/

mutual

/-- A JSON-like value as passed through `JSON.stringify`/`JSON.parse`:
`jbuf` stands for a native byte buffer (`Buffer` or any `Uint8Array`)
living inside an in-memory document; numeric payloads are modelled as
integers (their value is irrelevant to the buffer transforms). -/
inductive JVal where
  | jnull
  | jbool (b : Bool)
  | jnum (n : Int)
  | jstr (s : String)
  | jbuf (bytes : List Byte)
  | jarr (items : JArr)
  | jobj (fields : JObj)

/-- A JSON array. -/
inductive JArr where
  | nil
  | cons (hd : JVal) (tl : JArr)

/-- A JSON object as an ordered field list (JavaScript objects have no
duplicate keys; lookup returns the first match). -/
inductive JObj where
  | nil
  | cons (key : String) (val : JVal) (tl : JObj)

end

/-- Property access `o[k]`. -/
def JObj.lookup (k : String) : JObj → Option JVal
  | .nil => none
  | .cons key v tl => if k = key then some v else JObj.lookup k tl

/-- The string content of a value, when it is a string (used to model
`value?.type === "Buffer"`). -/
def JVal.headStr : JVal → Option String
  | .jstr s => some s
  | _ => none

/-- The array content of a value, when it is an array (used to model
`Array.isArray(value?.data)`). -/
def JVal.asArr : JVal → Option JArr
  | .jarr xs => some xs
  | _ => none

/-- Element coercion performed by `Buffer.from(value.data)` on a JSON
array: numbers are truncated mod 256; non-numeric entries are modelled as
byte 0 (their exact coercion is irrelevant to the checked properties). -/
def jsByte : JVal → Byte
  | .jnum n => ⟨(n % 256).toNat, by omega⟩
  | _ => ⟨0, by omega⟩

/-- `Buffer.from(value.data)` over a JSON array. -/
def JArr.toBytes : JArr → List Byte
  | .nil => []
  | .cons v tl => jsByte v :: JArr.toBytes tl

/-- The tagged object `{type: "Buffer", data: "<base64>"}`, as a field
list. -/
def bufferTagObj (bytes : List Byte) : JObj :=
  .cons "type" (.jstr "Buffer")
    (.cons "data" (.jstr (b64EncodeString bytes)) .nil)

/-- The tagged object `{type: "Buffer", data: "<base64>"}`. -/
def bufferTag (bytes : List Byte) : JVal :=
  .jobj (bufferTagObj bytes)

/-- The first replacer test of `serializeBaileysData`:
`value?.type === "Buffer" && Array.isArray(value?.data)`, returning the
bytes `Buffer.from(value.data)` would produce. -/
def serTag (o : JObj) : Option (List Byte) :=
  if (o.lookup "type").bind JVal.headStr = some "Buffer" then
    ((o.lookup "data").bind JVal.asArr).map JArr.toBytes
  else none

mutual

/-- `serializeBaileysData(data)` from `socket-factory.js`:
`JSON.parse(JSON.stringify(data, replacer))` where the replacer turns
array-tagged buffer objects, native `Buffer`s and `Uint8Array`s into
`{type: "Buffer", data: "<base64>"}` and leaves everything else
untouched (the replacer runs top-down, outermost value first). -/
def serializeBaileysData : JVal → JVal
  | .jobj o =>
    match serTag o with
    | some bytes => bufferTag bytes
    | none => .jobj (serializeObj o)
  | .jbuf bytes => bufferTag bytes
  | .jarr xs => .jarr (serializeArr xs)
  | .jnull => .jnull
  | .jbool b => .jbool b
  | .jnum n => .jnum n
  | .jstr s => .jstr s

/-- `serializeBaileysData` mapped over an array. -/
def serializeArr : JArr → JArr
  | .nil => .nil
  | .cons v tl => .cons (serializeBaileysData v) (serializeArr tl)

/-- `serializeBaileysData` mapped over the fields of an object. -/
def serializeObj : JObj → JObj
  | .nil => .nil
  | .cons k v tl => .cons k (serializeBaileysData v) (serializeObj tl)

end

theorem headStr_serialize (v : JVal) :
    (serializeBaileysData v).headStr = v.headStr := by
  cases v with
  | jobj o =>
    cases h : serTag o <;>
      simp [serializeBaileysData, h, bufferTag, JVal.headStr]
  | jbuf bytes => simp [serializeBaileysData, bufferTag, JVal.headStr]
  | jarr xs => simp [serializeBaileysData, JVal.headStr]
  | jnull => rfl
  | jbool b => rfl
  | jnum n => rfl
  | jstr s => rfl

theorem asArr_serialize (v : JVal) :
    (serializeBaileysData v).asArr = v.asArr.map serializeArr := by
  cases v with
  | jobj o =>
    cases h : serTag o <;>
      simp [serializeBaileysData, h, bufferTag, JVal.asArr]
  | jbuf bytes => simp [serializeBaileysData, bufferTag, JVal.asArr]
  | jarr xs => simp [serializeBaileysData, JVal.asArr]
  | jnull => rfl
  | jbool b => rfl
  | jnum n => rfl
  | jstr s => rfl

theorem lookup_serializeObj (k : String) :
    ∀ o : JObj, (serializeObj o).lookup k =
      (o.lookup k).map serializeBaileysData
  | .nil => rfl
  | .cons key v tl => by
    simp only [serializeObj, JObj.lookup]
    by_cases h : k = key
    · simp [h]
    · simp [h, lookup_serializeObj k tl]

theorem bind_headStr_map_serialize (x : Option JVal) :
    (x.map serializeBaileysData).bind JVal.headStr = x.bind JVal.headStr := by
  cases x with
  | none => rfl
  | some v => simp [headStr_serialize]

theorem serTag_serializeObj (o : JObj) (h : serTag o = none) :
    serTag (serializeObj o) = none := by
  unfold serTag at h ⊢
  rw [lookup_serializeObj, lookup_serializeObj, bind_headStr_map_serialize]
  by_cases hcond : (o.lookup "type").bind JVal.headStr = some "Buffer"
  · rw [if_pos hcond] at h ⊢
    have hd : (o.lookup "data").bind JVal.asArr = none := by
      cases hdd : (o.lookup "data").bind JVal.asArr with
      | none => rfl
      | some ds =>
        rw [hdd] at h
        simp at h
    cases hdo : o.lookup "data" with
    | none => rfl
    | some v =>
      rw [hdo] at hd
      simp only [Option.some_bind] at hd
      simp [asArr_serialize, hd]
  · rw [if_neg hcond]

theorem serTag_bufferTagObj (bytes : List Byte) :
    serTag (bufferTagObj bytes) = none := by
  unfold serTag bufferTagObj
  simp [JObj.lookup, JVal.headStr, JVal.asArr]

theorem serialize_bufferTag (bytes : List Byte) :
    serializeBaileysData (bufferTag bytes) = bufferTag bytes := by
  show serializeBaileysData (.jobj (bufferTagObj bytes)) = bufferTag bytes
  simp only [serializeBaileysData]
  rw [serTag_bufferTagObj]
  show JVal.jobj (serializeObj (bufferTagObj bytes)) = bufferTag bytes
  simp [serializeObj, bufferTagObj, bufferTag, serializeBaileysData]

mutual

theorem serializeBaileysData_idem :
    ∀ v : JVal, serializeBaileysData (serializeBaileysData v) =
      serializeBaileysData v
  | .jnull => rfl
  | .jbool b => rfl
  | .jnum n => rfl
  | .jstr s => rfl
  | .jbuf bytes => serialize_bufferTag bytes
  | .jarr xs => by
    simp only [serializeBaileysData]
    rw [serializeArr_idem xs]
  | .jobj o => by
    cases hst : serTag o with
    | some bytes =>
      have h1 : serializeBaileysData (.jobj o) = bufferTag bytes := by
        simp only [serializeBaileysData]
        rw [hst]
      rw [h1]
      exact serialize_bufferTag bytes
    | none =>
      have h1 : serializeBaileysData (.jobj o) = .jobj (serializeObj o) := by
        simp only [serializeBaileysData]
        rw [hst]
      rw [h1]
      simp only [serializeBaileysData]
      rw [serTag_serializeObj o hst]
      exact congrArg JVal.jobj (serializeObj_idem o)

theorem serializeArr_idem :
    ∀ xs : JArr, serializeArr (serializeArr xs) = serializeArr xs
  | .nil => rfl
  | .cons v tl => by
    simp only [serializeArr]
    rw [serializeBaileysData_idem v, serializeArr_idem tl]

theorem serializeObj_idem :
    ∀ o : JObj, serializeObj (serializeObj o) = serializeObj o
  | .nil => rfl
  | .cons k v tl => by
    simp only [serializeObj]
    rw [serializeBaileysData_idem v, serializeObj_idem tl]

end

/-- C10: the payload serializer is idempotent — after one pass every buffer
has the tagged string form, which the replacer leaves unchanged on a second
pass. -/
theorem serializeBaileysData_idempotent (v : JVal) :
    serializeBaileysData (serializeBaileysData v) = serializeBaileysData v :=
  serializeBaileysData_idem v


/-! ## The `BufferJSON` round trip of the Redis auth store
(`src/sessions/redis-auth-store.js`)

The store persists documents with
`stringify = JSON.stringify(o, BufferJSON.replacer)` and reads them back
with `parse = JSON.parse(s, BufferJSON.reviver)`. `BufferJSON` comes from
the Baileys library, whose source is not part of this repository.

Modelled from the spec: "Values are encoded with a reversible JSON
transform that preserves byte buffers and typed arrays", via the tagged
encoding `{type: "Buffer", data: "<base64>"}` — the replacer maps buffers
to tagged objects, the reviver detects tagged objects and restores
buffers. The trip through the Redis string value is the identity and is
elided. -/

/-- Tag detection of the reviver: an object with `type === "Buffer"` and a
string `data` field decodes its base64 payload. -/
def bjTag (o : JObj) : Option (List Byte) :=
  if (o.lookup "type").bind JVal.headStr = some "Buffer" then
    ((o.lookup "data").bind JVal.headStr).bind b64DecodeString
  else none

mutual

/-- Modelled from the spec: `stringify` of the auth store —
`JSON.stringify` with the buffer-preserving replacer, which encodes every
byte buffer or typed array as a tagged base64 object. -/
def bufferJsonSave : JVal → JVal
  | .jbuf bytes => bufferTag bytes
  | .jarr xs => .jarr (bufferJsonSaveArr xs)
  | .jobj o => .jobj (bufferJsonSaveObj o)
  | .jnull => .jnull
  | .jbool b => .jbool b
  | .jnum n => .jnum n
  | .jstr s => .jstr s

/-- `bufferJsonSave` mapped over an array. -/
def bufferJsonSaveArr : JArr → JArr
  | .nil => .nil
  | .cons v tl => .cons (bufferJsonSave v) (bufferJsonSaveArr tl)

/-- `bufferJsonSave` mapped over the fields of an object. -/
def bufferJsonSaveObj : JObj → JObj
  | .nil => .nil
  | .cons k v tl => .cons k (bufferJsonSave v) (bufferJsonSaveObj tl)

end

mutual

/-- Modelled from the spec: `parse` of the auth store — `JSON.parse` with
the corresponding reviver, which restores every tagged base64 object to a
byte buffer. -/
def bufferJsonLoad : JVal → JVal
  | .jobj o =>
    match bjTag o with
    | some bytes => .jbuf bytes
    | none => .jobj (bufferJsonLoadObj o)
  | .jarr xs => .jarr (bufferJsonLoadArr xs)
  | .jnull => .jnull
  | .jbool b => .jbool b
  | .jnum n => .jnum n
  | .jstr s => .jstr s
  | .jbuf bytes => .jbuf bytes

/-- `bufferJsonLoad` mapped over an array. -/
def bufferJsonLoadArr : JArr → JArr
  | .nil => .nil
  | .cons v tl => .cons (bufferJsonLoad v) (bufferJsonLoadArr tl)

/-- `bufferJsonLoad` mapped over the fields of an object. -/
def bufferJsonLoadObj : JObj → JObj
  | .nil => .nil
  | .cons k v tl => .cons k (bufferJsonLoad v) (bufferJsonLoadObj tl)

end

mutual

/-- An in-memory credential document: binary data appears only as real
byte buffers (`jbuf`), never as a plain object that already carries a
`type: "Buffer"` field — that shape is an encoding artifact, not part of
any document the store is handed. -/
def noBufferTag : JVal → Bool
  | .jobj o =>
    if (o.lookup "type").bind JVal.headStr = some "Buffer" then false
    else noBufferTagObj o
  | .jarr xs => noBufferTagArr xs
  | .jbuf _ => true
  | .jnull => true
  | .jbool _ => true
  | .jnum _ => true
  | .jstr _ => true

/-- `noBufferTag` over an array. -/
def noBufferTagArr : JArr → Bool
  | .nil => true
  | .cons v tl => noBufferTag v && noBufferTagArr tl

/-- `noBufferTag` over the fields of an object. -/
def noBufferTagObj : JObj → Bool
  | .nil => true
  | .cons _ v tl => noBufferTag v && noBufferTagObj tl

end

theorem lookup_bufferJsonSaveObj (k : String) :
    ∀ o : JObj, (bufferJsonSaveObj o).lookup k =
      (o.lookup k).map bufferJsonSave
  | .nil => rfl
  | .cons key v tl => by
    simp only [bufferJsonSaveObj, JObj.lookup]
    by_cases h : k = key
    · simp [h]
    · simp [h, lookup_bufferJsonSaveObj k tl]

theorem headStr_bufferJsonSave (v : JVal) :
    (bufferJsonSave v).headStr = v.headStr := by
  cases v with
  | jobj o => simp [bufferJsonSave, JVal.headStr]
  | jbuf bytes => simp [bufferJsonSave, bufferTag, JVal.headStr]
  | jarr xs => simp [bufferJsonSave, JVal.headStr]
  | jnull => rfl
  | jbool b => rfl
  | jnum n => rfl
  | jstr s => rfl

theorem bjTag_bufferTagObj (bytes : List Byte) :
    bjTag (bufferTagObj bytes) = some bytes := by
  unfold bjTag bufferTagObj
  simp [JObj.lookup, JVal.headStr]
  exact b64DecodeString_encode bytes

theorem bjTag_bufferJsonSaveObj (o : JObj)
    (h : ¬(o.lookup "type").bind JVal.headStr = some "Buffer") :
    bjTag (bufferJsonSaveObj o) = none := by
  unfold bjTag
  rw [lookup_bufferJsonSaveObj]
  have ht : ((o.lookup "type").map bufferJsonSave).bind JVal.headStr =
      (o.lookup "type").bind JVal.headStr := by
    cases o.lookup "type" with
    | none => rfl
    | some v => simp [headStr_bufferJsonSave]
  rw [ht, if_neg h]

mutual

theorem bufferJsonLoad_save :
    ∀ v : JVal, noBufferTag v = true →
      bufferJsonLoad (bufferJsonSave v) = v
  | .jnull, _ => rfl
  | .jbool b, _ => rfl
  | .jnum n, _ => rfl
  | .jstr s, _ => rfl
  | .jbuf bytes, _ => by
    show bufferJsonLoad (.jobj (bufferTagObj bytes)) = .jbuf bytes
    simp only [bufferJsonLoad]
    rw [bjTag_bufferTagObj]
  | .jarr xs, h => by
    have hx : noBufferTagArr xs = true := by
      simpa [noBufferTag] using h
    simp only [bufferJsonSave, bufferJsonLoad]
    rw [bufferJsonLoadArr_save xs hx]
  | .jobj o, h => by
    have hcond : ¬(o.lookup "type").bind JVal.headStr = some "Buffer" := by
      intro hc
      simp [noBufferTag, hc] at h
    have hrec : noBufferTagObj o = true := by
      simpa [noBufferTag, hcond] using h
    simp only [bufferJsonSave, bufferJsonLoad]
    rw [bjTag_bufferJsonSaveObj o hcond]
    exact congrArg JVal.jobj (bufferJsonLoadObj_save o hrec)

theorem bufferJsonLoadArr_save :
    ∀ xs : JArr, noBufferTagArr xs = true →
      bufferJsonLoadArr (bufferJsonSaveArr xs) = xs
  | .nil, _ => rfl
  | .cons v tl, h => by
    rw [noBufferTagArr, Bool.and_eq_true] at h
    simp only [bufferJsonSaveArr, bufferJsonLoadArr]
    rw [bufferJsonLoad_save v h.1, bufferJsonLoadArr_save tl h.2]

theorem bufferJsonLoadObj_save :
    ∀ o : JObj, noBufferTagObj o = true →
      bufferJsonLoadObj (bufferJsonSaveObj o) = o
  | .nil, _ => rfl
  | .cons k v tl, h => by
    rw [noBufferTagObj, Bool.and_eq_true] at h
    simp only [bufferJsonSaveObj, bufferJsonLoadObj]
    rw [bufferJsonLoad_save v h.1, bufferJsonLoadObj_save tl h.2]

end

/-- C7: persisting a credential document with `saveCreds` (stringify with
the buffer-preserving replacer) and reading it back with the corresponding
reviver is the identity, for every document whose binary data appears as
byte buffers or typed arrays (and not as a pre-tagged plain object, a shape
no in-memory credential document contains). -/
theorem authState_load_save_roundtrip (creds : JVal)
    (h : noBufferTag creds = true) :
    bufferJsonLoad (bufferJsonSave creds) = creds :=
  bufferJsonLoad_save creds h

/-- A concrete credential document with nested buffers. -/
def sampleCreds : JVal :=
  .jobj (.cons "me"
    (.jobj (.cons "id" (.jstr "5511999999999:12@s.whatsapp.net")
      (.cons "name" (.jstr "alpha") .nil)))
    (.cons "noiseKey"
      (.jobj (.cons "private" (.jbuf [0, 127, 255, 1, 66]) .nil))
      (.cons "registrationId" (.jnum 4321) .nil)))

/-- Closed witness for C7: the sample document survives the round trip. -/
theorem authState_load_save_roundtrip_witness :
    noBufferTag sampleCreds = true ∧
    bufferJsonLoad (bufferJsonSave sampleCreds) = sampleCreds :=
  ⟨by decide, authState_load_save_roundtrip sampleCreds (by decide)⟩

end BaileysSvc
